import Mathlib

/-!
Verification development for the AudienceLab agent orchestration and
evaluation engine and its social-network surface.

The evaluator, ledger writer, decision client, orchestrator and CLI are
documented in `docs/EVALUATION.md`, `docs/components/agent.md` and the
simulation integration protocol, but their Python implementation
(`agent/cli.py`, `agent/runner.py`) is not part of the source tree; those
components are modelled here from the specification text.  The stigmergic
persona runner (`agent/persona_runner.py`) and the SNS-Vibe feed actions
(`sns-vibe/src/routes/feed/+page.server.ts`) are embedded from the source.
-/

namespace Evaluation

/-- Action type of a ledger record (`action.type` in `actions.jsonl`). -/
inductive ActionType
  | observe
  | decide
  | act
deriving DecidableEq, Repr

/-- Status of a ledger record (`action.status` in `actions.jsonl`). -/
inductive ActionStatus
  | ok
  | error
deriving DecidableEq, Repr

/-- Result payload of an `act` record: `result.liked` and `result.commented`. -/
structure ActResult where
  liked : Bool
  commented : Bool
deriving DecidableEq, Repr

/-- Modelled from the spec: one line of an agent's `actions.jsonl` ledger,
restricted to the fields the evaluator reads (`agent/cli.py evaluate` is not
in the source tree).  The evaluator uses `action.type`, `action.status`,
`result.liked` and `result.commented`. -/
structure ActionRecord where
  type : ActionType
  status : ActionStatus
  result : ActResult
deriving DecidableEq, Repr

/-- Modelled from the spec: the evaluator aggregates only `act` records with
`status = ok` (`action.type == "act" AND action.status == "ok"`). -/
def okActs (ledger : List ActionRecord) : List ActionRecord :=
  ledger.filter fun r => decide (r.type = ActionType.act ∧ r.status = ActionStatus.ok)

/-- Modelled from the spec: `totalActs` is the number of aggregated acts. -/
def totalActs (ledger : List ActionRecord) : Nat :=
  (okActs ledger).length

/-- Modelled from the spec: `likeCount` counts aggregated acts with
`result.liked == true`. -/
def likeCount (ledger : List ActionRecord) : Nat :=
  (okActs ledger).countP fun r => r.result.liked

/-- Modelled from the spec: `commentCount` counts aggregated acts with
`result.commented == true`. -/
def commentCount (ledger : List ActionRecord) : Nat :=
  (okActs ledger).countP fun r => r.result.commented

/-- Modelled from the spec: `likeRate = likeCount / totalActs`. -/
def likeRate (ledger : List ActionRecord) : ℚ :=
  (likeCount ledger : ℚ) / (totalActs ledger : ℚ)

/-- Modelled from the spec: `commentRate = commentCount / totalActs`. -/
def commentRate (ledger : List ActionRecord) : ℚ :=
  (commentCount ledger : ℚ) / (totalActs ledger : ℚ)

/-- Modelled from the spec: count similarity
`max(0, 1 - |actual - expected| / max(expected, 1))`; the denominator is
fixed to 1 when the expected value is 0. -/
def countSimilarity (actual expected : ℚ) : ℚ :=
  max 0 (1 - |actual - expected| / max expected 1)

/-- Modelled from the spec: rate similarity
`max(0, 1 - |actualRate - expectedRate|)`. -/
def rateSimilarity (actual expected : ℚ) : ℚ :=
  max 0 (1 - |actual - expected|)

/-- Modelled from the spec: the expected-baseline input document, with at
least one of `likeCount`, `commentCount`, `likeRate`, `commentRate`. -/
structure ExpectedInput where
  likeCount : Option ℚ
  commentCount : Option ℚ
  likeRate : Option ℚ
  commentRate : Option ℚ
deriving DecidableEq, Repr

/-- Modelled from the spec: metric weights with the documented defaults
(`likeCount` 0.5, `commentCount` 0.5, rates 0). -/
structure MetricWeights where
  likeCount : ℚ := 1 / 2
  commentCount : ℚ := 1 / 2
  likeRate : ℚ := 0
  commentRate : ℚ := 0
deriving DecidableEq, Repr

/-- Modelled from the spec: per-metric block of the evaluation result
(`expected`, `actual`, `absError`, `relativeError`, `similarity`). -/
structure MetricResult where
  expected : ℚ
  actual : ℚ
  absError : ℚ
  relativeError : ℚ
  similarity : ℚ
deriving DecidableEq, Repr

/-- Modelled from the spec: per-metric result of a count metric. -/
def countMetric (actual expected : ℚ) : MetricResult :=
  { expected := expected
    actual := actual
    absError := |actual - expected|
    relativeError := |actual - expected| / max expected 1
    similarity := countSimilarity actual expected }

/-- Modelled from the spec: per-metric result of a rate metric. -/
def rateMetric (actual expected : ℚ) : MetricResult :=
  { expected := expected
    actual := actual
    absError := |actual - expected|
    relativeError := |actual - expected|
    similarity := rateSimilarity actual expected }

/-- Modelled from the spec: the evaluation result document's `metrics`
block, one optional entry per metric present in `expected`, plus
`overallSimilarity`. -/
structure EvaluationResult where
  likeCount : Option MetricResult
  commentCount : Option MetricResult
  likeRate : Option MetricResult
  commentRate : Option MetricResult
  overallSimilarity : ℚ
deriving DecidableEq, Repr

/-- Modelled from the spec: the (similarity, weight) pairs of the metrics
present in `expected`, in the fixed metric order. -/
def simPairs (e : ExpectedInput) (w : MetricWeights) (ledger : List ActionRecord) :
    List (ℚ × ℚ) :=
  (match e.likeCount with
    | some x => [(countSimilarity (likeCount ledger : ℚ) x, w.likeCount)]
    | none => []) ++
  (match e.commentCount with
    | some x => [(countSimilarity (commentCount ledger : ℚ) x, w.commentCount)]
    | none => []) ++
  (match e.likeRate with
    | some x => [(rateSimilarity (likeRate ledger) x, w.likeRate)]
    | none => []) ++
  (match e.commentRate with
    | some x => [(rateSimilarity (commentRate ledger) x, w.commentRate)]
    | none => [])

/-- Modelled from the spec: `overallSimilarity = sum(sim * weight) / sum(weights)`
over the metrics present in `expected` (0 when no weight is in play). -/
def overallOf (pairs : List (ℚ × ℚ)) : ℚ :=
  let sumW := (pairs.map Prod.snd).sum
  if sumW = 0 then 0 else (pairs.map fun p => p.1 * p.2).sum / sumW

/-- Modelled from the spec: `evaluate(expected, ledger)` —
filter to ok acts, extract the observed metrics, compare each metric present
in `expected`, and compute the weight-normalized overall similarity. -/
def evaluate (e : ExpectedInput) (w : MetricWeights) (ledger : List ActionRecord) :
    EvaluationResult :=
  { likeCount := e.likeCount.map fun x => countMetric (likeCount ledger : ℚ) x
    commentCount := e.commentCount.map fun x => countMetric (commentCount ledger : ℚ) x
    likeRate := e.likeRate.map fun x => rateMetric (likeRate ledger) x
    commentRate := e.commentRate.map fun x => rateMetric (commentRate ledger) x
    overallSimilarity := overallOf (simPairs e w ledger) }

/-- An ok `act` record that resulted in a like. -/
def likeAct : ActionRecord :=
  { type := ActionType.act, status := ActionStatus.ok
    result := { liked := true, commented := false } }

/-- An ok `act` record that resulted in a comment. -/
def commentAct : ActionRecord :=
  { type := ActionType.act, status := ActionStatus.ok
    result := { liked := false, commented := true } }

/-- Scenario A ledger: 27 ok likes and 12 ok comments. -/
def scenarioALedger : List ActionRecord :=
  List.replicate 27 likeAct ++ List.replicate 12 commentAct

/-- Scenario A expected baseline: `{likeCount: 30, commentCount: 10}`. -/
def scenarioAExpected : ExpectedInput :=
  { likeCount := some 30, commentCount := some 10
    likeRate := none, commentRate := none }

/-- An ok `observe` record (not aggregated by the evaluator). -/
def observeOk : ActionRecord :=
  { type := ActionType.observe, status := ActionStatus.ok
    result := { liked := false, commented := false } }

/-- A pathological expected baseline: expected like count 0. -/
def zeroLikeExpected : ExpectedInput :=
  { likeCount := some 0, commentCount := none
    likeRate := none, commentRate := none }

end Evaluation

namespace Ledger

/-- Modelled from the spec: an Action Record as seen by the ledger writer
(`agent/runner.py` is not in the source tree) — the owning agent id and the
monotonically increasing per-agent sequence number, the natural key. -/
structure ActionRecord where
  agentId : String
  sequence : Nat
  type : Evaluation.ActionType
deriving DecidableEq, Repr

/-- Modelled from the spec: one step of a run's interleaved schedule — the
named agent appends one action record to its own ledger (one writer per
agent, no cross-agent writes). -/
structure StepEvent where
  agentId : String
  type : Evaluation.ActionType
deriving DecidableEq, Repr

/-- Modelled from the spec: the stepping agent appends a record whose
sequence number is its own current record count plus one; other agents'
ledgers are untouched. -/
def appendRecord (st : String → List ActionRecord) (e : StepEvent) :
    String → List ActionRecord :=
  fun a =>
    if a = e.agentId then
      st a ++ [{ agentId := e.agentId, sequence := (st a).length + 1, type := e.type }]
    else st a

/-- At run start every agent's ledger is empty. -/
def emptyLedgers : String → List ActionRecord := fun _ => []

/-- Modelled from the spec: the per-agent ledgers produced by a run with the
given interleaved schedule of agent steps. -/
def runLedgers (events : List StepEvent) : String → List ActionRecord :=
  events.foldl appendRecord emptyLedgers

end Ledger

namespace DecisionClient

/-- The closed action vocabulary of a decision. -/
inductive DAction
  | like
  | comment
  | follow
  | skip
deriving DecidableEq, Repr

/-- Decision sentiment. -/
inductive Sentiment
  | positive
  | neutral
  | negative
deriving DecidableEq, Repr

/-- Modelled from the spec: a structured decision
`{action, comment_text, reasoning, sentiment}` (the Python Decision Client
is not in the source tree). -/
structure Decision where
  action : DAction
  comment_text : Option String
  reasoning : String
  sentiment : Sentiment
deriving DecidableEq, Repr

/-- Transport-level failures of the external decision call. -/
inductive CallError
  | requestFailed
  | timedOut
deriving DecidableEq, Repr

/-- Modelled from the spec: the deterministic fallback decision — `skip`
with a canned reasoning string. -/
def fallbackDecision : Decision :=
  { action := DAction.skip
    comment_text := none
    reasoning := "Decision service unavailable; skipping."
    sentiment := Sentiment.neutral }

/-- Modelled from the spec: `decide` — dry-run bypasses the external call
and returns the fallback; a failed or timed-out call, or a payload the
parser rejects as malformed, degrades to the fallback instead of
propagating the failure to the caller. -/
def clientDecide (parse : String → Option Decision) (dryRun : Bool)
    (raw : Except CallError String) : Decision :=
  if dryRun then fallbackDecision
  else
    match raw with
    | Except.error _ => fallbackDecision
    | Except.ok payload => (parse payload).getD fallbackDecision

/-- The decide-phase fields of an Action Record: status and the decision. -/
structure DecideRecord where
  status : Evaluation.ActionStatus
  decision : Decision
deriving DecidableEq, Repr

/-- Modelled from the spec: the decide Action Record a crowd agent appends
after calling the Decision Client — always `status = ok`, carrying whatever
decision the client returned. -/
def appendDecide (parse : String → Option Decision) (dryRun : Bool)
    (raw : Except CallError String) : DecideRecord :=
  { status := Evaluation.ActionStatus.ok
    decision := clientDecide parse dryRun raw }

/-- Terminal state of one agent instance. -/
inductive AgentTerminal
  | completed
  | errored
deriving DecidableEq, Repr

/-- Modelled from the spec: a crowd agent's run over the raw outcomes of its
decision calls — every call yields a decide record through the
fallback-protected client, and decision failures never abort the agent. -/
def runCrowdAgent (parse : String → Option Decision) (dryRun : Bool)
    (raws : List (Except CallError String)) : List DecideRecord × AgentTerminal :=
  (raws.map (appendDecide parse dryRun), AgentTerminal.completed)

end DecisionClient

namespace Orchestrator

/-- Run status enum of the shared Run document. -/
inductive RunStatus
  | running
  | completed
  | failed
deriving DecidableEq, Repr

/-- The Run document fields governed by the writer requirements. -/
structure RunDoc where
  status : RunStatus
  progress : Nat
  resultPresent : Bool
deriving DecidableEq, Repr

/-- Orchestrator-private run state: agent totals plus the Run document. -/
structure OrchState where
  total : Nat
  completedAgents : Nat
  doc : RunDoc
deriving DecidableEq, Repr

/-- Orchestrator events: one agent reached a terminal state, or the final
write. -/
inductive OrchEvent
  | agentDone
  | finalize (anySuccess : Bool)
deriving DecidableEq, Repr

/-- Modelled from the spec: progress percentage of a run with `c` of `t`
agents finished. -/
def progressOf (c t : Nat) : Nat :=
  if t = 0 then 100 else 100 * c / t

/-- Modelled from the spec: the Orchestrator is the sole writer of the Run
document; each agent-completion event bumps the completed count and
recomputes progress; the final write sets a terminal status (completed, or
failed when no agent succeeded) with progress 100; a Run document that has
reached a terminal status is never updated again. -/
def orchStep (st : OrchState) : OrchEvent → OrchState
  | OrchEvent.agentDone =>
    if st.doc.status ≠ RunStatus.running then st
    else
      let c := min (st.completedAgents + 1) st.total
      { st with
          completedAgents := c
          doc := { st.doc with progress := progressOf c st.total } }
  | OrchEvent.finalize ok =>
    if st.doc.status ≠ RunStatus.running then st
    else
      { st with
          doc := { status := if ok then RunStatus.completed else RunStatus.failed
                   progress := 100
                   resultPresent := ok } }

/-- The Run record as created at orchestration start: running, progress 0. -/
def initState (total : Nat) : OrchState :=
  { total := total
    completedAgents := 0
    doc := { status := RunStatus.running, progress := progressOf 0 total
             resultPresent := false } }

/-- The orchestrator state after processing the given events in order. -/
def runOrch (total : Nat) (events : List OrchEvent) : OrchState :=
  events.foldl orchStep (initState total)

/-- Writer invariant of the orchestrator state. -/
def OrchInv (st : OrchState) : Prop :=
  st.completedAgents ≤ st.total ∧
    st.doc.progress ≤ 100 ∧
    (st.doc.status = RunStatus.running →
      st.doc.progress = progressOf st.completedAgents st.total)

end Orchestrator

namespace AtomicWrite

/-- Modelled from the spec: the filesystem as readers of the Run document
see it — the published document plus the writer's private temporary file. -/
structure FsState where
  published : List String
  temp : List String
deriving DecidableEq, Repr

/-- Writer operations: append one chunk to the temporary file, or rename
the temporary file into place. -/
inductive WriteStep
  | writeChunk (chunk : String)
  | rename
deriving DecidableEq, Repr

/-- Modelled from the spec: chunk writes touch only the temporary file;
the rename installs the temporary file as the published document in a
single step. -/
def fsStep (st : FsState) : WriteStep → FsState
  | WriteStep.writeChunk c => { st with temp := st.temp ++ [c] }
  | WriteStep.rename => { published := st.temp, temp := [] }

/-- Modelled from the spec: the atomic-write protocol for a new document —
write every chunk to a temporary file, then rename it into place. -/
def writerScript (doc : List String) : List WriteStep :=
  doc.map WriteStep.writeChunk ++ [WriteStep.rename]

/-- A reader's view at any moment: the currently published document. -/
def readDoc (st : FsState) : List String :=
  st.published

/-- The filesystem state after the writer has executed the first `k` steps
of the atomic-write protocol replacing `oldDoc` by `newDoc`. -/
def execPrefix (oldDoc newDoc : List String) (k : Nat) : FsState :=
  ((writerScript newDoc).take k).foldl fsStep { published := oldDoc, temp := [] }

end AtomicWrite

namespace Cli

end Cli

namespace Stigmergy

/-- A persona entry of `PERSONAS` in `agent/persona_runner.py`. -/
structure PersonaP where
  id : String
  name : String
  age : String
  interests : List String
  tone : String
  values : List String
  reaction_tendency : String
deriving DecidableEq, Repr

/-- A decision parsed from the model response in `run_persona_simulation`
(the JSON response format of `build_system_prompt`). -/
structure PDecision where
  internal_thought : String
  reaction : String
  action : String
  comment_text : Option String
  reasoning : String
deriving DecidableEq, Repr

/-- `chr(10).join(["- " + c for c in previous_comments])` from
`build_system_prompt`. -/
def dashJoin : List String → String
  | [] => ""
  | [c] => "- " ++ c
  | c :: rest => "- " ++ c ++ "\n" ++ dashJoin rest

/-- The `context` block of `build_system_prompt`: empty when there are no
previous comments, otherwise the header, the dash-joined comments, and the
instruction to consider them. -/
def contextBlock (previous_comments : List String) : String :=
  if previous_comments.isEmpty then ""
  else
    "\n## Previous Comments on This Post\n" ++ dashJoin previous_comments ++
      "\n\nConsider these existing comments when forming your reaction.\n"

/-- The persona profile section of `build_system_prompt`. -/
def personaProfile (p : PersonaP) : String :=
  "You are a social media user with the following persona:\n\n## Profile\n- Name: " ++
    p.name ++ "\n- Age Group: " ++ p.age ++ "\n- Interests: " ++
    String.intercalate ", " p.interests ++ "\n- Communication Tone: " ++
    p.tone ++ "\n- Core Values: " ++ String.intercalate ", " p.values ++ "\n\n"

/-- The task section of `build_system_prompt`, including the JSON response
format. -/
def taskBlock : String :=
  "\n\n## Task\nLook at the social media post and provide your authentic reaction.\nYour response should reflect your persona's values and communication style.\n\nRespond in this JSON format:\n\x7b\n    \"internal_thought\": \"Your internal thinking process (Chain of Thought)\",\n    \"reaction\": \"positive\" | \"neutral\" | \"negative\",\n    \"action\": \"like\" | \"comment\" | \"skip\",\n    \"comment_text\": \"Your comment if action is 'comment', else null\",\n    \"reasoning\": \"Brief explanation of your decision\"\n\x7d\n"

/-- `build_system_prompt(persona, previous_comments)` from
`agent/persona_runner.py`: the persona profile, the stigmergic context
block, and the task instructions. -/
def build_system_prompt (p : PersonaP) (previous_comments : List String) : String :=
  personaProfile p ++ contextBlock previous_comments ++ taskBlock

/-- `f"[\x7bpersona['name']\x7d]: \x7bcomment_text\x7d"` — the tag under
which an emitted comment enters the stigmergy trace. -/
def taggedComment (p : PersonaP) (c : String) : String :=
  "[" ++ p.name ++ "]: " ++ c

/-- `if decision.get("comment_text")` — a decision emits a comment exactly
when `comment_text` is present and non-empty (Python truthiness). -/
def emittedComment (p : PersonaP) (d : PDecision) : Option String :=
  match d.comment_text with
  | some c => if c = "" then none else some (taggedComment p c)
  | none => none

/-- One iteration of the `run_persona_simulation` loop: the snapshot of
`previous_comments` the persona observed, and the decision it produced. -/
structure SimStep where
  persona : PersonaP
  snapshot : List String
  decision : PDecision
deriving DecidableEq, Repr

/-- The sequential loop of `run_persona_simulation`: personas run in order;
each observes the accumulated `previous_comments` through
`build_system_prompt`, and a decision carrying a non-empty comment appends
its tagged comment for the following personas. `dFn` abstracts the model
call `(persona, system_prompt, post) → decision`. -/
def simSteps (dFn : PersonaP → String → String → PDecision) (post : String) :
    List PersonaP → List String → List SimStep
  | [], _ => []
  | p :: ps, prev =>
    let d := dFn p (build_system_prompt p prev) post
    let prev2 :=
      match emittedComment p d with
      | some c => prev ++ [c]
      | none => prev
    { persona := p, snapshot := prev, decision := d } :: simSteps dFn post ps prev2

/-- The accumulated `previous_comments` (the final `stigmergy_trace`) of a
list of steps. -/
def stigmergyTrace (steps : List SimStep) : List String :=
  steps.filterMap fun s => emittedComment s.persona s.decision

/-- `run_persona_simulation(post, personas)`: the loop starts with an empty
`previous_comments` list. -/
def runPersonaSimulation (dFn : PersonaP → String → String → PDecision)
    (post : String) (personas : List PersonaP) : List SimStep :=
  simSteps dFn post personas []

/-- A demo persona for concrete runs. -/
def demoPersonaA : PersonaP :=
  { id := "vegan_mom", name := "A", age := "35-44", interests := ["wellbeing"]
    tone := "supportive", values := ["family"], reaction_tendency := "supportive" }

/-- A second demo persona for concrete runs. -/
def demoPersonaB : PersonaP :=
  { id := "beauty_expert", name := "B", age := "25-34", interests := ["skincare"]
    tone := "analytic", values := ["efficacy"], reaction_tendency := "questioning" }

/-- A demo decision oracle: every persona comments with its own id. -/
def demoFn : PersonaP → String → String → PDecision :=
  fun p _ _ =>
    { internal_thought := "", reaction := "positive", action := "comment"
      comment_text := some ("nice post, says " ++ p.id), reasoning := "demo" }

/-- The demo run of two commenting personas. -/
def demoSteps : List SimStep :=
  runPersonaSimulation demoFn "ad post" [demoPersonaA, demoPersonaB]

/-- The second step of the two-persona demo run. -/
def demoStep1 : SimStep :=
  { persona := demoPersonaB
    snapshot := ["[A]: nice post, says vegan_mom"]
    decision := { internal_thought := "", reaction := "positive", action := "comment"
                  comment_text := some "nice post, says beauty_expert"
                  reasoning := "demo" } }

end Stigmergy

namespace SnsVibe

/-- A row of the `users` table (the fields the feed actions read). -/
structure UserRow where
  id : Nat
  username : String
deriving DecidableEq, Repr

/-- A row of the `posts` table. -/
structure PostRow where
  id : Nat
  user_id : Nat
  content : String
deriving DecidableEq, Repr

/-- A row of the `likes` table (the schema declares
`UNIQUE(user_id, post_id)` and an autoincrement primary key). -/
structure LikeRow where
  id : Nat
  user_id : Nat
  post_id : Nat
deriving DecidableEq, Repr

/-- A row of the `comments` table. -/
structure CommentRow where
  id : Nat
  user_id : Nat
  post_id : Nat
  content : String
deriving DecidableEq, Repr

/-- The SQLite state touched by the feed actions of
`sns-vibe/src/routes/feed/+page.server.ts`, with the autoincrement
counters. -/
structure Db where
  users : List UserRow
  posts : List PostRow
  comments : List CommentRow
  likes : List LikeRow
  nextPostId : Nat
  nextCommentId : Nat
  nextLikeId : Nat
deriving DecidableEq, Repr

/-- The form data read by the feed actions (`postId`, `content`); `none`
models a missing field (`data.get` returning `null`). -/
structure FormData where
  postId : Option Nat
  content : Option String
deriving DecidableEq, Repr

/-- `SELECT id FROM users WHERE username = ?` (`.get`, first match). -/
def getUserByUsername (db : Db) (username : String) : Option UserRow :=
  db.users.find? fun u => u.username == username

/-- `SELECT id FROM likes WHERE user_id = ? AND post_id = ?` (`.get`,
first match). -/
def findLike (db : Db) (userId postId : Nat) : Option LikeRow :=
  db.likes.find? fun l => l.user_id == userId && l.post_id == postId

/-- `(SELECT COUNT(*) FROM likes WHERE post_id = p.id)` — the feed's
`like_count` column for a post. -/
def likeCountOf (db : Db) (postId : Nat) : Nat :=
  (db.likes.filter fun l => l.post_id == postId).length

/-- `EXISTS(SELECT 1 FROM likes WHERE post_id = p.id AND user_id = ?)` —
the feed's `is_liked` column for a post and user. -/
def isLiked (db : Db) (userId postId : Nat) : Bool :=
  db.likes.any fun l => l.user_id == userId && l.post_id == postId

/-- `actions.createPost`: a missing (or empty, hence falsy) session cookie
returns immediately; a falsy (empty or missing) `content` skips the insert
and returns silently — `user.id` is only dereferenced inside the insert, so
a cookie naming no user crashes only when an insert is attempted. -/
def createPost (db : Db) (session : Option String) (fd : FormData) :
    Except String Db :=
  match session with
  | none => Except.ok db
  | some username =>
    if username = "" then Except.ok db
    else
      let user := getUserByUsername db username
      match fd.content with
      | none => Except.ok db
      | some content =>
        if content = "" then Except.ok db
        else
          match user with
          | none => Except.error "TypeError: cannot read id of undefined"
          | some u =>
            Except.ok
              { db with
                  posts := db.posts ++
                    [{ id := db.nextPostId, user_id := u.id, content := content }]
                  nextPostId := db.nextPostId + 1 }

/-- `DELETE FROM likes WHERE id = ?` — removes the row with the given
primary key. -/
def deleteLike (db : Db) (e : LikeRow) : Db :=
  { db with likes := db.likes.filter fun l => decide (l.id ≠ e.id) }

/-- `INSERT INTO likes (user_id, post_id) VALUES (?, ?)` — appends one like
row under the next autoincrement id. -/
def insertLike (db : Db) (userId postId : Nat) : Db :=
  { db with
      likes := db.likes ++ [{ id := db.nextLikeId, user_id := userId, post_id := postId }]
      nextLikeId := db.nextLikeId + 1 }

/-- `actions.like`: a falsy session cookie returns immediately; a cookie
naming no user crashes on `user.id` (dereferenced in the like lookup);
otherwise the first like row of (user, post) is looked up — if present it
is deleted by id, else one like row is inserted (a missing `postId` or a
nonexistent post makes the insert violate a constraint). -/
def likeAction (db : Db) (session : Option String) (fd : FormData) :
    Except String Db :=
  match session with
  | none => Except.ok db
  | some username =>
    if username = "" then Except.ok db
    else
      match getUserByUsername db username with
      | none => Except.error "TypeError: cannot read id of undefined"
      | some user =>
        match fd.postId with
        | none => Except.error "SqliteError: NOT NULL constraint failed: likes.post_id"
        | some postId =>
          match findLike db user.id postId with
          | some existing => Except.ok (deleteLike db existing)
          | none =>
            if db.posts.any fun p => p.id == postId then
              Except.ok (insertLike db user.id postId)
            else Except.error "SqliteError: FOREIGN KEY constraint failed"

/-- `actions.comment`: a falsy session cookie returns immediately; a falsy
`content` skips the insert and returns silently (`user.id` is only
dereferenced inside the insert); otherwise one comment row is inserted (a
missing user, a missing `postId` or a nonexistent post makes the insert
fail). -/
def commentAction (db : Db) (session : Option String) (fd : FormData) :
    Except String Db :=
  match session with
  | none => Except.ok db
  | some username =>
    if username = "" then Except.ok db
    else
      let user := getUserByUsername db username
      match fd.content with
      | none => Except.ok db
      | some content =>
        if content = "" then Except.ok db
        else
          match user with
          | none => Except.error "TypeError: cannot read id of undefined"
          | some u =>
            match fd.postId with
            | none =>
              Except.error "SqliteError: NOT NULL constraint failed: comments.post_id"
            | some postId =>
              if db.posts.any fun p => p.id == postId then
                Except.ok
                  { db with
                      comments := db.comments ++
                        [{ id := db.nextCommentId, user_id := u.id
                           post_id := postId, content := content }]
                      nextCommentId := db.nextCommentId + 1 }
              else Except.error "SqliteError: FOREIGN KEY constraint failed"

/-- A small concrete database: one user, one post, no likes. -/
def demoDb : Db :=
  { users := [{ id := 1, username := "alice" }]
    posts := [{ id := 1, user_id := 1, content := "hello" }]
    comments := []
    likes := []
    nextPostId := 2
    nextCommentId := 1
    nextLikeId := 1 }

end SnsVibe

namespace Evaluation

theorem okActs_cons_of_not (r : ActionRecord) (led : List ActionRecord)
    (h : ¬(r.type = ActionType.act ∧ r.status = ActionStatus.ok)) :
    okActs (r :: led) = okActs led := by
  simp [okActs, List.filter_cons, h]

theorem likeCount_scenarioA : likeCount scenarioALedger = 27 := by decide

theorem commentCount_scenarioA : commentCount scenarioALedger = 12 := by decide

theorem countSimilarity_nonneg (a e : ℚ) : 0 ≤ countSimilarity a e :=
  le_max_left 0 _

theorem countSimilarity_le_one (a e : ℚ) : countSimilarity a e ≤ 1 := by
  have hd : (0:ℚ) < max e 1 := lt_max_of_lt_right one_pos
  have ht : 0 ≤ |a - e| / max e 1 := div_nonneg (abs_nonneg _) hd.le
  exact max_le one_pos.le (by linarith)

theorem rateSimilarity_nonneg (a e : ℚ) : 0 ≤ rateSimilarity a e :=
  le_max_left 0 _

theorem rateSimilarity_le_one (a e : ℚ) : rateSimilarity a e ≤ 1 := by
  have ht : 0 ≤ |a - e| := abs_nonneg _
  exact max_le one_pos.le (by linarith)

theorem mem_optBlock {o : Option ℚ} {f : ℚ → ℚ × ℚ} {p : ℚ × ℚ}
    (hp : p ∈ (match o with | some x => [f x] | none => ([] : List (ℚ × ℚ)))) :
    ∃ x, o = some x ∧ p = f x := by
  cases o <;> simp_all

theorem simPairs_mem (e : ExpectedInput) (w : MetricWeights) (led : List ActionRecord)
    (hw1 : 0 ≤ w.likeCount) (hw2 : 0 ≤ w.commentCount)
    (hw3 : 0 ≤ w.likeRate) (hw4 : 0 ≤ w.commentRate) :
    ∀ p ∈ simPairs e w led, (0 ≤ p.1 ∧ p.1 ≤ 1) ∧ 0 ≤ p.2 := by
  intro p hp
  rw [simPairs] at hp
  simp only [List.mem_append] at hp
  rcases hp with ((hp | hp) | hp) | hp
  · obtain ⟨x, -, rfl⟩ := mem_optBlock hp
    exact ⟨⟨countSimilarity_nonneg _ _, countSimilarity_le_one _ _⟩, hw1⟩
  · obtain ⟨x, -, rfl⟩ := mem_optBlock hp
    exact ⟨⟨countSimilarity_nonneg _ _, countSimilarity_le_one _ _⟩, hw2⟩
  · obtain ⟨x, -, rfl⟩ := mem_optBlock hp
    exact ⟨⟨rateSimilarity_nonneg _ _, rateSimilarity_le_one _ _⟩, hw3⟩
  · obtain ⟨x, -, rfl⟩ := mem_optBlock hp
    exact ⟨⟨rateSimilarity_nonneg _ _, rateSimilarity_le_one _ _⟩, hw4⟩

theorem weighted_sum_bounds (pairs : List (ℚ × ℚ))
    (h : ∀ p ∈ pairs, (0 ≤ p.1 ∧ p.1 ≤ 1) ∧ 0 ≤ p.2) :
    0 ≤ (pairs.map fun p => p.1 * p.2).sum ∧
      (pairs.map fun p => p.1 * p.2).sum ≤ (pairs.map Prod.snd).sum ∧
      0 ≤ (pairs.map Prod.snd).sum := by
  induction pairs with
  | nil => simp
  | cons q rest ih =>
    obtain ⟨⟨hq0, hq1⟩, hqw⟩ := h q (List.mem_cons_self q rest)
    obtain ⟨ih1, ih2, ih3⟩ := ih fun p hp => h p (List.mem_cons_of_mem q hp)
    refine ⟨?_, ?_, ?_⟩ <;> simp only [List.map_cons, List.sum_cons]
    · exact add_nonneg (mul_nonneg hq0 hqw) ih1
    · have : q.1 * q.2 ≤ q.2 := by nlinarith
      linarith
    · linarith

theorem overallOf_bounds (pairs : List (ℚ × ℚ))
    (h : ∀ p ∈ pairs, (0 ≤ p.1 ∧ p.1 ≤ 1) ∧ 0 ≤ p.2) :
    0 ≤ overallOf pairs ∧ overallOf pairs ≤ 1 := by
  obtain ⟨h1, h2, h3⟩ := weighted_sum_bounds pairs h
  rw [overallOf]
  by_cases hz : (pairs.map Prod.snd).sum = 0
  · simp [hz]
  · have hpos : 0 < (pairs.map Prod.snd).sum := lt_of_le_of_ne h3 (Ne.symm hz)
    simp only [hz, if_false]
    exact ⟨div_nonneg h1 h3, (div_le_one hpos).mpr h2⟩

/-- C1: the evaluator aggregates only ok `act` records, computes the count
and rate metrics, scores each count metric by
`max(0, 1 - |actual-expected| / max(expected,1))`, and normalizes the
weighted sum with default weights `likeCount` 0.5 / `commentCount` 0.5 /
rates 0; on Scenario A (expected 30 likes / 10 comments, observed 27 ok
likes and 12 ok comments) the like similarity is 0.9, the comment
similarity is 0.8 and the overall similarity is 0.85. -/
theorem evaluator_metrics_and_scenarioA :
    (∀ (e : ExpectedInput) (w : MetricWeights) (r : ActionRecord)
        (led : List ActionRecord),
        (r.type ≠ ActionType.act ∨ r.status ≠ ActionStatus.ok) →
          evaluate e w (r :: led) = evaluate e w led) ∧
    (∀ led : List ActionRecord,
        (evaluate scenarioAExpected {} led).overallSimilarity =
          countSimilarity (likeCount led : ℚ) 30 / 2 +
            countSimilarity (commentCount led : ℚ) 10 / 2) ∧
    (evaluate scenarioAExpected {} scenarioALedger).likeCount =
      some { expected := 30, actual := 27, absError := 3,
             relativeError := 1/10, similarity := 9/10 } ∧
    (evaluate scenarioAExpected {} scenarioALedger).commentCount =
      some { expected := 10, actual := 12, absError := 2,
             relativeError := 1/5, similarity := 4/5 } ∧
    (evaluate scenarioAExpected {} scenarioALedger).overallSimilarity = 17/20 := by
  refine ⟨?_, ?_, ?_, ?_, ?_⟩
  · intro e w r led h
    have h' : ¬(r.type = ActionType.act ∧ r.status = ActionStatus.ok) := by tauto
    have hok := okActs_cons_of_not r led h'
    simp only [evaluate, simPairs, likeCount, commentCount, likeRate, commentRate,
      totalActs, hok]
  · intro led
    simp only [evaluate, simPairs, scenarioAExpected, overallOf, List.append_nil,
      List.nil_append, List.cons_append, List.map_cons, List.map_nil, List.sum_cons,
      List.sum_nil, Prod.snd]
    norm_num
    ring
  · simp only [evaluate, scenarioAExpected, Option.map_some, countMetric,
      countSimilarity, likeCount_scenarioA]
    norm_num
  · simp only [evaluate, scenarioAExpected, Option.map_some, countMetric,
      countSimilarity, commentCount_scenarioA]
    norm_num
  · simp only [evaluate, simPairs, scenarioAExpected, overallOf,
      likeCount_scenarioA, commentCount_scenarioA, countSimilarity,
      List.append_nil, List.nil_append, List.cons_append, List.map_cons,
      List.map_nil, List.sum_cons, List.sum_nil]
    norm_num

/-- Closed witness for the hypothesis-bearing part of C1. -/
theorem evaluator_metrics_and_scenarioA_witness :
    evaluate scenarioAExpected {} (observeOk :: scenarioALedger) =
      evaluate scenarioAExpected {} scenarioALedger :=
  evaluator_metrics_and_scenarioA.1 scenarioAExpected {} observeOk scenarioALedger
    (Or.inl (by decide))

/-- C5: every per-metric similarity and the overall similarity produced by
the evaluator lie in `[0, 1]`, for all expected inputs (including
`expected = 0` with arbitrary observed counts, where the denominator is
fixed to 1) and all non-negative metric weights. -/
theorem similarity_scores_in_unit_interval
    (e : ExpectedInput) (w : MetricWeights) (led : List ActionRecord)
    (hw1 : 0 ≤ w.likeCount) (hw2 : 0 ≤ w.commentCount)
    (hw3 : 0 ≤ w.likeRate) (hw4 : 0 ≤ w.commentRate) :
    (∀ m, (evaluate e w led).likeCount = some m →
        0 ≤ m.similarity ∧ m.similarity ≤ 1) ∧
    (∀ m, (evaluate e w led).commentCount = some m →
        0 ≤ m.similarity ∧ m.similarity ≤ 1) ∧
    (∀ m, (evaluate e w led).likeRate = some m →
        0 ≤ m.similarity ∧ m.similarity ≤ 1) ∧
    (∀ m, (evaluate e w led).commentRate = some m →
        0 ≤ m.similarity ∧ m.similarity ≤ 1) ∧
    0 ≤ (evaluate e w led).overallSimilarity ∧
      (evaluate e w led).overallSimilarity ≤ 1 := by
  refine ⟨?_, ?_, ?_, ?_, ?_⟩
  · intro m hm
    simp only [evaluate, Option.map_eq_some'] at hm
    obtain ⟨x, -, rfl⟩ := hm
    exact ⟨countSimilarity_nonneg _ _, countSimilarity_le_one _ _⟩
  · intro m hm
    simp only [evaluate, Option.map_eq_some'] at hm
    obtain ⟨x, -, rfl⟩ := hm
    exact ⟨countSimilarity_nonneg _ _, countSimilarity_le_one _ _⟩
  · intro m hm
    simp only [evaluate, Option.map_eq_some'] at hm
    obtain ⟨x, -, rfl⟩ := hm
    exact ⟨rateSimilarity_nonneg _ _, rateSimilarity_le_one _ _⟩
  · intro m hm
    simp only [evaluate, Option.map_eq_some'] at hm
    obtain ⟨x, -, rfl⟩ := hm
    exact ⟨rateSimilarity_nonneg _ _, rateSimilarity_le_one _ _⟩
  · exact overallOf_bounds _ (simPairs_mem e w led hw1 hw2 hw3 hw4)

/-- Closed witness for C5, at a pathological input: expected like count 0
with 27 observed likes. -/
theorem similarity_scores_in_unit_interval_witness :
    0 ≤ (evaluate zeroLikeExpected {} scenarioALedger).overallSimilarity ∧
      (evaluate zeroLikeExpected {} scenarioALedger).overallSimilarity ≤ 1 :=
  (similarity_scores_in_unit_interval zeroLikeExpected {} scenarioALedger
    (by norm_num) (by norm_num) (by norm_num) (by norm_num)).2.2.2.2

end Evaluation

namespace Ledger

theorem appendRecord_inv (st : String → List ActionRecord) (e : StepEvent)
    (h : ∀ a, (st a).map (fun r => r.sequence) = List.range' 1 (st a).length) :
    ∀ a, ((appendRecord st e) a).map (fun r => r.sequence) =
      List.range' 1 ((appendRecord st e) a).length := by
  intro a
  rw [appendRecord]
  by_cases ha : a = e.agentId
  · subst ha
    rw [if_pos rfl, List.map_append, List.length_append, h e.agentId]
    simp only [List.map_cons, List.map_nil, List.length_cons, List.length_nil]
    rw [List.range'_1_concat]
    simp [Nat.add_comm]
  · simp only [if_neg ha]
    exact h a

theorem runLedgers_inv (events : List Ledger.StepEvent) :
    ∀ (st : String → List ActionRecord),
      (∀ a, (st a).map (fun r => r.sequence) = List.range' 1 (st a).length) →
      ∀ a, ((events.foldl appendRecord st) a).map (fun r => r.sequence) =
        List.range' 1 ((events.foldl appendRecord st) a).length := by
  induction events with
  | nil => intro st h a; exact h a
  | cons e rest ih =>
    intro st h a
    exact ih (appendRecord st e) (appendRecord_inv st e h) a

/-- C2: for every interleaved schedule of agent steps and every agent, the
sequence numbers of that agent's action records are exactly `1..N` where
`N` is its record count — contiguous, gap-free and duplicate-free,
regardless of how the agents' steps interleave. -/
theorem sequence_numbers_contiguous (events : List StepEvent) (agent : String) :
    ((runLedgers events) agent).map (fun r => r.sequence) =
      List.range' 1 ((runLedgers events) agent).length := by
  rw [runLedgers]
  exact runLedgers_inv events emptyLedgers (fun a => rfl) agent

end Ledger

namespace DecisionClient

/-- C3: whenever the external decision call fails, times out, or returns a
payload the parser rejects, the client returns the deterministic fallback
decision (`skip` with a canned reasoning string) instead of propagating the
failure; the crowd agent therefore appends a decide record with
`status = ok` carrying the fallback decision `skip`, and its run reaches the
`completed` terminal state. -/
theorem decision_failure_degrades_to_fallback
    (parse : String → Option Decision) (raw : Except CallError String)
    (raws : List (Except CallError String))
    (h : ∀ p, raw = Except.ok p → parse p = none) :
    clientDecide parse false raw = fallbackDecision ∧
    fallbackDecision.action = DAction.skip ∧
    (appendDecide parse false raw).status = Evaluation.ActionStatus.ok ∧
    (appendDecide parse false raw).decision.action = DAction.skip ∧
    (runCrowdAgent parse false raws).2 = AgentTerminal.completed := by
  have hdec : clientDecide parse false raw = fallbackDecision := by
    cases raw with
    | error e => simp [clientDecide]
    | ok p => simp [clientDecide, h p rfl]
  refine ⟨hdec, rfl, rfl, ?_, rfl⟩
  simp [appendDecide, hdec, fallbackDecision]

/-- Closed witness for C3: a simulated timeout. -/
theorem decision_failure_degrades_to_fallback_witness :
    clientDecide (fun _ => none) false (Except.error CallError.timedOut) =
        fallbackDecision ∧
    fallbackDecision.action = DAction.skip ∧
    (appendDecide (fun _ => none) false (Except.error CallError.timedOut)).status =
        Evaluation.ActionStatus.ok ∧
    (appendDecide (fun _ => none) false (Except.error CallError.timedOut)).decision.action =
        DAction.skip ∧
    (runCrowdAgent (fun _ => none) false [Except.error CallError.timedOut]).2 =
        AgentTerminal.completed :=
  decision_failure_degrades_to_fallback (fun _ => none)
    (Except.error CallError.timedOut) [Except.error CallError.timedOut]
    (fun _ hp => nomatch hp)

end DecisionClient

namespace Orchestrator

theorem progressOf_le_100 (c t : Nat) (h : c ≤ t) : progressOf c t ≤ 100 := by
  rw [progressOf]
  by_cases ht : t = 0
  · simp [ht]
  · simp only [ht, if_false]
    calc 100 * c / t ≤ 100 * t / t := Nat.div_le_div_right (Nat.mul_le_mul_left 100 h)
    _ = 100 := Nat.mul_div_cancel 100 (Nat.pos_of_ne_zero ht)

theorem progressOf_mono (t : Nat) {c c' : Nat} (h : c ≤ c') :
    progressOf c t ≤ progressOf c' t := by
  rw [progressOf, progressOf]
  by_cases ht : t = 0
  · simp [ht]
  · simp only [ht, if_false]
    exact Nat.div_le_div_right (Nat.mul_le_mul_left 100 h)

theorem orchStep_inv {st : OrchState} (e : OrchEvent) (h : OrchInv st) :
    OrchInv (orchStep st e) := by
  obtain ⟨h1, h2, h3⟩ := h
  by_cases hrun : st.doc.status = RunStatus.running
  · cases e with
    | agentDone =>
      rw [orchStep]
      simp only [hrun, ne_eq, not_true_eq_false, if_false]
      refine ⟨Nat.min_le_right _ _, ?_, fun _ => rfl⟩
      exact progressOf_le_100 _ _ (Nat.min_le_right _ _)
    | finalize ok =>
      rw [orchStep]
      simp only [hrun, ne_eq, not_true_eq_false, if_false]
      refine ⟨h1, ?_, fun hc => ?_⟩
      · cases ok <;> exact Nat.le_refl 100
      · cases ok <;> simp_all
  · cases e <;> rw [orchStep] <;> simp only [hrun, ne_eq, not_false_eq_true, if_true] <;>
      exact ⟨h1, h2, h3⟩

theorem orchStep_progress_mono {st : OrchState} (e : OrchEvent) (h : OrchInv st) :
    st.doc.progress ≤ (orchStep st e).doc.progress := by
  obtain ⟨h1, h2, h3⟩ := h
  by_cases hrun : st.doc.status = RunStatus.running
  · cases e with
    | agentDone =>
      rw [orchStep]
      simp only [hrun, ne_eq, not_true_eq_false, if_false]
      have hc : st.completedAgents ≤ min (st.completedAgents + 1) st.total :=
        Nat.le_min.mpr ⟨Nat.le_succ _, h1⟩
      calc st.doc.progress = progressOf st.completedAgents st.total := h3 hrun
      _ ≤ progressOf (min (st.completedAgents + 1) st.total) st.total :=
          progressOf_mono _ hc
    | finalize ok =>
      rw [orchStep]
      simp only [hrun, ne_eq, not_true_eq_false, if_false]
      exact h2
  · cases e <;> rw [orchStep] <;>
      simp only [hrun, ne_eq, not_false_eq_true, if_true] <;> exact Nat.le_refl _

theorem orchStep_frozen {st : OrchState} (e : OrchEvent)
    (h : st.doc.status ≠ RunStatus.running) : orchStep st e = st := by
  cases e <;> rw [orchStep, if_pos h]

theorem foldl_orchStep_frozen (events : List OrchEvent) {st : OrchState}
    (h : st.doc.status ≠ RunStatus.running) : events.foldl orchStep st = st := by
  induction events with
  | nil => rfl
  | cons e rest ih => rw [List.foldl_cons, orchStep_frozen e h]; exact ih

theorem foldl_orchStep_inv (events : List OrchEvent) {st : OrchState}
    (h : OrchInv st) : OrchInv (events.foldl orchStep st) := by
  induction events generalizing st with
  | nil => exact h
  | cons e rest ih => exact ih (orchStep_inv e h)

theorem runOrch_inv (total : Nat) (events : List OrchEvent) :
    OrchInv (runOrch total events) :=
  foldl_orchStep_inv events
    ⟨Nat.zero_le _, progressOf_le_100 0 total (Nat.zero_le total), fun _ => rfl⟩

/-- C4: the Run document's progress is monotonically non-decreasing across
successive orchestrator updates — with no assumption on whether the run is
still in progress — and once the Run document carries a terminal status
(completed or failed) no later event changes any field of the orchestrator
state or the Run document. -/
theorem run_progress_monotone_and_terminal_frozen (total : Nat)
    (events extra : List OrchEvent) (e : OrchEvent) :
    (runOrch total events).doc.progress ≤
        (runOrch total (events ++ [e])).doc.progress ∧
      ((runOrch total events).doc.status ≠ RunStatus.running →
        runOrch total (events ++ extra) = runOrch total events) := by
  constructor
  · rw [runOrch, runOrch, List.foldl_append, List.foldl_cons, List.foldl_nil]
    exact orchStep_progress_mono e (runOrch_inv total events)
  · intro hterm
    rw [runOrch, List.foldl_append]
    exact foldl_orchStep_frozen extra hterm

/-- Closed witness for C4: during the running phase an agent completion
does not decrease progress, and after a finalize a further agent completion
changes nothing. -/
theorem run_progress_monotone_and_terminal_frozen_witness :
    ((runOrch 2 [OrchEvent.agentDone]).doc.progress ≤
        (runOrch 2 ([OrchEvent.agentDone] ++ [OrchEvent.agentDone])).doc.progress) ∧
      runOrch 2 ([OrchEvent.agentDone, OrchEvent.finalize true] ++
          [OrchEvent.agentDone]) =
        runOrch 2 [OrchEvent.agentDone, OrchEvent.finalize true] :=
  ⟨(run_progress_monotone_and_terminal_frozen 2 [OrchEvent.agentDone]
      [OrchEvent.agentDone] OrchEvent.agentDone).1,
    (run_progress_monotone_and_terminal_frozen 2
      [OrchEvent.agentDone, OrchEvent.finalize true] [OrchEvent.agentDone]
      OrchEvent.agentDone).2 (by decide)⟩

end Orchestrator

namespace AtomicWrite

theorem foldl_writeChunks (chunks : List String) :
    ∀ st : FsState, (chunks.map WriteStep.writeChunk).foldl fsStep st =
      { published := st.published, temp := st.temp ++ chunks } := by
  induction chunks with
  | nil => intro st; simp
  | cons c rest ih =>
    intro st
    rw [List.map_cons, List.foldl_cons]
    rw [ih]
    simp [fsStep]

/-- C6: at every point during the atomic final write of the Run document, a
reader sees either the complete previous document or the complete new
document — never a partially written one. -/
theorem atomic_write_no_partial_reads (oldDoc newDoc : List String) (k : Nat) :
    readDoc (execPrefix oldDoc newDoc k) = oldDoc ∨
      readDoc (execPrefix oldDoc newDoc k) = newDoc := by
  rw [execPrefix, writerScript]
  by_cases hk : k ≤ newDoc.length
  · left
    rw [List.take_append_of_le_length (by simpa using hk)]
    rw [← List.map_take, foldl_writeChunks]
    rfl
  · right
    have hlen : (newDoc.map WriteStep.writeChunk ++ [WriteStep.rename]).length ≤ k := by
      simp
      omega
    rw [List.take_of_length_le hlen, List.foldl_append, foldl_writeChunks]
    simp [fsStep, readDoc]

end AtomicWrite

namespace Cli

end Cli

namespace Stigmergy

theorem mem_dashJoin_infix :
    ∀ (l : List String) (c : String), c ∈ l → c.data <:+: (dashJoin l).data := by
  intro l
  induction l with
  | nil => intro c hc; cases hc
  | cons a rest ih =>
    intro c hc
    cases rest with
    | nil =>
      rw [List.mem_singleton] at hc
      subst hc
      rw [dashJoin, String.data_append]
      exact (List.suffix_append _ _).isInfix
    | cons b rest2 =>
      rcases List.mem_cons.mp hc with hc | hc
      · subst hc
        refine ⟨"- ".data, "\n".data ++ (dashJoin (b :: rest2)).data, ?_⟩
        simp only [dashJoin, String.data_append, List.append_assoc]
      · obtain ⟨s, t, hst⟩ := ih c hc
        refine ⟨"- ".data ++ a.data ++ "\n".data ++ s, t, ?_⟩
        simp only [dashJoin, String.data_append, List.append_assoc, hst]

theorem mem_contextBlock_infix (comments : List String) (c : String)
    (hc : c ∈ comments) : c.data <:+: (contextBlock comments).data := by
  have hne : comments.isEmpty = false := by
    cases comments with
    | nil => cases hc
    | cons x xs => rfl
  rw [contextBlock, hne]
  simp only [Bool.false_eq_true, if_false, String.data_append]
  obtain ⟨s, t, hst⟩ := mem_dashJoin_infix comments c hc
  refine ⟨"\n## Previous Comments on This Post\n".data ++ s,
    t ++ "\n\nConsider these existing comments when forming your reaction.\n".data, ?_⟩
  simp only [← hst, List.append_assoc]

theorem mem_snapshot_infix_prompt (p : PersonaP) (comments : List String)
    (c : String) (hc : c ∈ comments) :
    c.data <:+: (build_system_prompt p comments).data := by
  rw [build_system_prompt]
  simp only [String.data_append]
  obtain ⟨s, t, hst⟩ := mem_contextBlock_infix comments c hc
  refine ⟨(personaProfile p).data ++ s, t ++ taskBlock.data, ?_⟩
  simp only [← hst, List.append_assoc]

theorem simSteps_snapshot (dFn : PersonaP → String → String → PDecision)
    (post : String) :
    ∀ (personas : List PersonaP) (prev : List String) (i : Nat) (step : SimStep),
      (simSteps dFn post personas prev)[i]? = some step →
      step.snapshot = prev ++ stigmergyTrace ((simSteps dFn post personas prev).take i) := by
  intro personas
  induction personas with
  | nil => intro prev i step hstep; simp [simSteps] at hstep
  | cons p ps ih =>
    intro prev i step hget
    cases i with
    | zero =>
      simp only [simSteps, List.getElem?_cons_zero, Option.some_inj] at hget
      subst hget
      simp [stigmergyTrace]
    | succ k =>
      cases hemit : emittedComment p (dFn p (build_system_prompt p prev) post) with
      | none =>
        have hstep : simSteps dFn post (p :: ps) prev =
            { persona := p, snapshot := prev
              decision := dFn p (build_system_prompt p prev) post } ::
              simSteps dFn post ps prev := by
          simp only [simSteps, hemit]
        rw [hstep] at hget ⊢
        rw [List.getElem?_cons_succ] at hget
        rw [List.take_succ_cons, stigmergyTrace, List.filterMap_cons]
        simp only [hemit]
        rw [← stigmergyTrace]
        exact ih prev k step hget
      | some c =>
        have hstep : simSteps dFn post (p :: ps) prev =
            { persona := p, snapshot := prev
              decision := dFn p (build_system_prompt p prev) post } ::
              simSteps dFn post ps (prev ++ [c]) := by
          simp only [simSteps, hemit]
        rw [hstep] at hget ⊢
        rw [List.getElem?_cons_succ] at hget
        rw [List.take_succ_cons, stigmergyTrace, List.filterMap_cons]
        simp only [hemit]
        rw [← stigmergyTrace, ih (prev ++ [c]) k step hget]
        simp [List.append_assoc]

/-- C8: the stigmergic comment channel is append-only — in every run, the
snapshot each persona observes is exactly the sequence of tagged comments
emitted by the earlier personas in append order; an earlier snapshot is a
prefix of every later one (no partial appends); every comment of a snapshot
appears verbatim in the system prompt built from it; and an earlier
persona's emitted comment is contained in every later persona's snapshot. -/
theorem stigmergic_channel_append_only
    (dFn : PersonaP → String → String → PDecision) (post : String)
    (personas : List PersonaP) (i j : Nat) (si sj : SimStep)
    (hi : (runPersonaSimulation dFn post personas)[i]? = some si)
    (hj : (runPersonaSimulation dFn post personas)[j]? = some sj)
    (hij : i ≤ j) :
    si.snapshot = stigmergyTrace ((runPersonaSimulation dFn post personas).take i) ∧
    si.snapshot <+: sj.snapshot ∧
    (∀ c, c ∈ sj.snapshot →
      c.data <:+: (build_system_prompt sj.persona sj.snapshot).data) ∧
    (∀ c, i < j → emittedComment si.persona si.decision = some c →
      c ∈ sj.snapshot) := by
  have hsi : si.snapshot =
      stigmergyTrace ((runPersonaSimulation dFn post personas).take i) := by
    have := simSteps_snapshot dFn post personas [] i si hi
    simpa [runPersonaSimulation] using this
  have hsj : sj.snapshot =
      stigmergyTrace ((runPersonaSimulation dFn post personas).take j) := by
    have := simSteps_snapshot dFn post personas [] j sj hj
    simpa [runPersonaSimulation] using this
  refine ⟨hsi, ?_, ?_, ?_⟩
  · rw [hsi, hsj, stigmergyTrace, stigmergyTrace]
    exact (List.take_prefix_take_left _ hij).filterMap _
  · intro c hc
    exact mem_snapshot_infix_prompt _ _ c hc
  · intro c hlt hemit
    rw [hsj, stigmergyTrace]
    refine List.mem_filterMap.mpr ⟨si, ?_, hemit⟩
    refine List.getElem?_mem (n := i) ?_
    rw [List.getElem?_take_of_lt hlt]
    exact hi

/-- Closed witness for C8 on the two-persona demo run: the second persona's
snapshot is exactly the first persona's tagged comment. -/
theorem stigmergic_channel_append_only_witness :
    demoStep1.snapshot = stigmergyTrace (demoSteps.take 1) :=
  (stigmergic_channel_append_only demoFn "ad post" [demoPersonaA, demoPersonaB]
    1 1 demoStep1 demoStep1 rfl rfl (Nat.le_refl 1)).1

end Stigmergy

namespace SnsVibe

/-- C10: the createPost and comment actions with an empty or missing
content field — under any session cookie — and all three actions without a
session cookie, are silent no-ops: the database is unchanged and no error
reaches the caller. -/
theorem falsy_content_and_no_session_are_silent_noops
    (db : Db) (fd fd2 : FormData) (session : Option String)
    (hempty : fd.content = none ∨ fd.content = some "") :
    createPost db session fd = Except.ok db ∧
    commentAction db session fd = Except.ok db ∧
    createPost db none fd2 = Except.ok db ∧
    likeAction db none fd2 = Except.ok db ∧
    commentAction db none fd2 = Except.ok db := by
  refine ⟨?_, ?_, rfl, rfl, rfl⟩ <;>
  · cases session with
    | none => rfl
    | some username =>
      by_cases hu : username = "" <;>
        rcases hempty with he | he <;>
          simp [createPost, commentAction, hu, he]

/-- Closed witness for C10 at a concrete database and form inputs. -/
theorem falsy_content_and_no_session_are_silent_noops_witness :
    createPost demoDb (some "alice") { postId := some 1, content := some "" } =
        Except.ok demoDb ∧
    commentAction demoDb (some "alice") { postId := some 1, content := some "" } =
        Except.ok demoDb ∧
    createPost demoDb none { postId := some 1, content := some "hey" } =
        Except.ok demoDb ∧
    likeAction demoDb none { postId := some 1, content := some "hey" } =
        Except.ok demoDb ∧
    commentAction demoDb none { postId := some 1, content := some "hey" } =
        Except.ok demoDb :=
  falsy_content_and_no_session_are_silent_noops demoDb
    { postId := some 1, content := some "" }
    { postId := some 1, content := some "hey" }
    (some "alice") (Or.inr rfl)

end SnsVibe

namespace SnsVibe

theorem two_mem_two_le_length {α : Type} {a b : α} :
    ∀ {l : List α}, a ∈ l → b ∈ l → a ≠ b → 2 ≤ l.length := by
  intro l
  induction l with
  | nil => intro ha _ _; cases ha
  | cons x xs ih =>
    intro ha hb hab
    rcases List.mem_cons.mp ha with rfl | ha
    · rcases List.mem_cons.mp hb with rfl | hb
      · exact absurd rfl hab
      · have h1 : 0 < xs.length := List.length_pos.mpr (List.ne_nil_of_mem hb)
        simp only [List.length_cons]
        omega
    · have h1 : 0 < xs.length := List.length_pos.mpr (List.ne_nil_of_mem ha)
      simp only [List.length_cons]
      omega

theorem length_filter_erase (r : LikeRow) (P : LikeRow → Bool) :
    ∀ (likes : List LikeRow), (likes.map fun l => l.id).Nodup → r ∈ likes →
      ((likes.filter fun l => decide (l.id ≠ r.id)).filter P).length =
        (likes.filter P).length - (if P r then 1 else 0) := by
  intro likes
  induction likes with
  | nil => intro _ hr; cases hr
  | cons x xs ih =>
    intro hnd hr
    rw [List.map_cons, List.nodup_cons] at hnd
    obtain ⟨hxid, hnd2⟩ := hnd
    rcases List.mem_cons.mp hr with rfl | hr
    · have hxs : ∀ l ∈ xs, (decide (l.id ≠ r.id)) = true := by
        intro l hl
        simp only [decide_eq_true_eq]
        intro hid
        exact hxid (hid ▸ List.mem_map_of_mem (fun l => l.id) hl)
      rw [List.filter_cons_of_neg (p := fun (l : LikeRow) => decide (l.id ≠ r.id)) (by simp),
        List.filter_eq_self.mpr hxs]
      by_cases hP : P r
      · rw [List.filter_cons_of_pos hP]
        simp [hP]
      · rw [List.filter_cons_of_neg (by simp [hP])]
        simp [hP]
    · have hxne : decide (x.id ≠ r.id) = true := by
        simp only [decide_eq_true_eq]
        intro hid
        exact hxid (hid ▸ List.mem_map_of_mem (fun l => l.id) hr)
      have hbound : (if P r then 1 else 0) ≤ (xs.filter P).length := by
        by_cases hPr : P r
        · simp only [hPr, if_true]
          exact List.length_pos.mpr (List.ne_nil_of_mem (List.mem_filter.mpr ⟨hr, hPr⟩))
        · simp [hPr]
      rw [List.filter_cons_of_pos (p := fun (l : LikeRow) => decide (l.id ≠ r.id)) hxne]
      by_cases hP : P x
      · rw [List.filter_cons_of_pos hP, List.filter_cons_of_pos hP]
        simp only [List.length_cons, ih hnd2 hr]
        omega
      · rw [List.filter_cons_of_neg (by simp [hP]), List.filter_cons_of_neg (by simp [hP])]
        exact ih hnd2 hr

end SnsVibe

namespace SnsVibe

theorem likeAction_delete (db : Db) (username : String) (user : UserRow)
    (postId : Nat) (e : LikeRow)
    (hu : username ≠ "") (huser : getUserByUsername db username = some user)
    (he : findLike db user.id postId = some e) :
    likeAction db (some username) { postId := some postId, content := none } =
      Except.ok (deleteLike db e) := by
  simp only [likeAction, if_neg hu, huser, he]

theorem likeAction_insert (db : Db) (username : String) (user : UserRow)
    (postId : Nat)
    (hu : username ≠ "") (huser : getUserByUsername db username = some user)
    (hfind : findLike db user.id postId = none)
    (hpost : (db.posts.any fun p => p.id == postId) = true) :
    likeAction db (some username) { postId := some postId, content := none } =
      Except.ok (insertLike db user.id postId) := by
  simp only [likeAction, if_neg hu, huser, hfind, hpost, if_true]

/-- C9: the like action is a toggle — for a logged-in user and an existing
post (under the schema invariants: `UNIQUE(user_id, post_id)`, unique
primary keys, autoincrement fresh ids), an existing like row is deleted and
a missing one is inserted; consequently running the action twice in a row
restores the post's `is_liked` state and `like_count` to their original
values. -/
theorem like_is_toggle (db : Db) (username : String) (user : UserRow) (postId : Nat)
    (hu : username ≠ "")
    (huser : getUserByUsername db username = some user)
    (hpost : (db.posts.any fun p => p.id == postId) = true)
    (huniq : ((db.likes.filter fun l => l.user_id == user.id && l.post_id == postId).length) ≤ 1)
    (hids : (db.likes.map fun l => l.id).Nodup)
    (hfresh : ∀ l ∈ db.likes, l.id < db.nextLikeId) :
    (∀ e, findLike db user.id postId = some e →
      likeAction db (some username) { postId := some postId, content := none } =
        Except.ok (deleteLike db e)) ∧
    (findLike db user.id postId = none →
      likeAction db (some username) { postId := some postId, content := none } =
        Except.ok (insertLike db user.id postId)) ∧
    (∃ db2,
      (likeAction db (some username) { postId := some postId, content := none }).bind
        (fun db1 =>
          likeAction db1 (some username) { postId := some postId, content := none }) =
            Except.ok db2 ∧
      isLiked db2 user.id postId = isLiked db user.id postId ∧
      likeCountOf db2 postId = likeCountOf db postId) := by
  refine ⟨fun e he => likeAction_delete db username user postId e hu huser he,
    fun hn => likeAction_insert db username user postId hu huser hn hpost, ?_⟩
  cases hfind : findLike db user.id postId with
  | some e =>
    rw [findLike] at hfind
    have hmem : e ∈ db.likes := List.mem_of_find?_eq_some hfind
    have hpe0 := List.find?_some hfind
    have hpe : (e.user_id == user.id && e.post_id == postId) = true := hpe0
    have hpe2 : e.user_id = user.id ∧ e.post_id = postId := by simpa using hpe
    have hePost : (e.post_id == postId) = true := by simp [hpe2.2]
    have huser1 : getUserByUsername (deleteLike db e) username = some user := huser
    have hfind1 : findLike (deleteLike db e) user.id postId = none := by
      cases hx : findLike (deleteLike db e) user.id postId with
      | none => rfl
      | some l =>
        exfalso
        rw [findLike] at hx
        have hlmem : l ∈ (deleteLike db e).likes := List.mem_of_find?_eq_some hx
        have hlp0 := List.find?_some hx
        have hlp : (l.user_id == user.id && l.post_id == postId) = true := hlp0
        simp only [deleteLike] at hlmem
        obtain ⟨hlmem2, hlne⟩ := List.mem_filter.mp hlmem
        simp only [decide_eq_true_eq] at hlne
        have hlnee : l ≠ e := fun h => hlne (h ▸ rfl)
        have h2 : 2 ≤ ((db.likes.filter
            fun l => l.user_id == user.id && l.post_id == postId).length) :=
          two_mem_two_le_length (List.mem_filter.mpr ⟨hlmem2, hlp⟩)
            (List.mem_filter.mpr ⟨hmem, hpe⟩) hlnee
        omega
    have hpost1 : ((deleteLike db e).posts.any fun p => p.id == postId) = true := hpost
    have hcall1 := likeAction_delete db username user postId e hu huser
      (by rw [findLike]; exact hfind)
    have hcall2 := likeAction_insert (deleteLike db e) username user postId hu
      huser1 hfind1 hpost1
    refine ⟨insertLike (deleteLike db e) user.id postId, ?_, ?_, ?_⟩
    · rw [hcall1]
      simp only [Except.bind]
      exact hcall2
    · have hnew : ((user.id == user.id) && (postId == postId)) = true := by simp
      have hl2 : isLiked (insertLike (deleteLike db e) user.id postId)
          user.id postId = true := by
        simp [isLiked, insertLike, deleteLike, List.any_append]
      have hl0 : isLiked db user.id postId = true := by
        rw [isLiked]
        exact List.any_eq_true.mpr ⟨e, hmem, hpe⟩
      rw [hl2, hl0]
    · have hcount2 : likeCountOf (insertLike (deleteLike db e) user.id postId) postId =
          (((db.likes.filter fun l => decide (l.id ≠ e.id)).filter
            fun l => l.post_id == postId).length) + 1 := by
        simp [likeCountOf, insertLike, deleteLike, List.filter_append]
      have herase := length_filter_erase e (fun l => l.post_id == postId)
        db.likes hids hmem
      have herase2 : (((db.likes.filter fun l => decide (l.id ≠ e.id)).filter
          fun l => l.post_id == postId).length) =
            ((db.likes.filter fun l => l.post_id == postId).length) - 1 := by
        rw [herase]
        simp [hePost]
      have hpos : 0 < ((db.likes.filter fun l => l.post_id == postId).length) :=
        List.length_pos.mpr
          (List.ne_nil_of_mem (List.mem_filter.mpr ⟨hmem, hePost⟩))
      rw [hcount2, herase2, likeCountOf]
      omega
  | none =>
    have huser1 : getUserByUsername (insertLike db user.id postId) username =
        some user := huser
    have hfind1 : findLike (insertLike db user.id postId) user.id postId =
        some { id := db.nextLikeId, user_id := user.id, post_id := postId } := by
      rw [findLike]
      simp only [insertLike]
      rw [List.find?_append]
      rw [findLike] at hfind
      rw [hfind]
      simp
    have hcall1 := likeAction_insert db username user postId hu huser hfind hpost
    have hcall2 := likeAction_delete (insertLike db user.id postId) username user
      postId { id := db.nextLikeId, user_id := user.id, post_id := postId }
      hu huser1 hfind1
    have hlikes : (deleteLike (insertLike db user.id postId)
        { id := db.nextLikeId, user_id := user.id, post_id := postId }).likes =
          db.likes := by
      simp only [deleteLike, insertLike]
      rw [List.filter_append]
      have h1 : (db.likes.filter fun l => decide (l.id ≠ db.nextLikeId)) = db.likes :=
        List.filter_eq_self.mpr fun l hl => by
          simp only [decide_eq_true_eq]
          exact Nat.ne_of_lt (hfresh l hl)
      rw [h1]
      simp
    refine ⟨deleteLike (insertLike db user.id postId)
      { id := db.nextLikeId, user_id := user.id, post_id := postId }, ?_, ?_, ?_⟩
    · rw [hcall1]
      simp only [Except.bind]
      exact hcall2
    · rw [isLiked, isLiked, hlikes]
    · rw [likeCountOf, likeCountOf, hlikes]

/-- Closed witness for C9 at a concrete database: one user, one post, no
likes — liking twice restores the unliked state and zero count. -/
theorem like_is_toggle_witness :
    ∃ db2,
      (likeAction demoDb (some "alice") { postId := some 1, content := none }).bind
        (fun db1 =>
          likeAction db1 (some "alice") { postId := some 1, content := none }) =
            Except.ok db2 ∧
      isLiked db2 1 1 = isLiked demoDb 1 1 ∧
      likeCountOf db2 1 = likeCountOf demoDb 1 :=
  (like_is_toggle demoDb "alice" { id := 1, username := "alice" } 1
    (by decide) rfl rfl (by decide) (by decide)
    (fun l hl => by cases hl)).2.2

end SnsVibe
